import Mathlib

/-!
Verification of the `persistence` Redis store adapter (`redis.go`).

The adapter translates cache operations (`Set`, `Add`, `Replace`, `Get`,
`Delete`, `Increment`, `Decrement`) into commands of an external
Redis-compatible key-value client, mapping the client's sentinel conditions
into a small error vocabulary.  We embed the adapter's logic shallowly:

* the remote store is modelled as an association list from keys to entries,
  an entry being the stored byte string together with the expiration duration
  that was passed to the client when it was written (`0` means "no
  expiration", which is how the go-redis client treats a zero expiration);
* the external client primitives (`SET`, `SETNX`, `EXISTS`, `GET`, `DEL`,
  `DECRBY`, `GET`-as-int64) are modelled over that store with Redis
  semantics: `GET` on an absent key yields the nil reply, `DECRBY` requires
  an int64-shaped value and rejects results outside the int64 range;
* Go machine arithmetic (`uint64`/`int64` conversions and wrap-around) is
  made explicit over `Nat`/`Int`.
-/

set_option maxHeartbeats 1000000

/-- Durations mirror Go `time.Duration`, an `int64` count of nanoseconds. -/
abbrev Duration := Int

/-- Modelled from the spec: the sentinel constant meaning "use the configured
default expiration".  The constants `DEFAULT` and `FOREVER` live in the
persistence package outside `src/`; upstream defines `DEFAULT` as the zero
duration. -/
def DEFAULT : Duration := 0

/-- Modelled from the spec: the sentinel constant meaning "never expire".
Upstream defines `FOREVER` as `time.Duration(-1)`; `expval` in `redis.go`
maps it to the zero duration, which the client treats as "no expiration". -/
def FOREVER : Duration := -1

/-- Modelled from the spec: the adapter's error vocabulary.  `ErrCacheMiss`
and `ErrNotStored` are defined in the persistence package outside `src/`;
serialization failures and client-level failures are passed through, the
latter carrying the client's message. -/
inductive Err where
  | cacheMiss
  | notStored
  | serializeFailed
  | deserializeFailed
  | clientErr (msg : String)
deriving DecidableEq

/-- One remote entry: the stored byte string together with the expiration
duration that was handed to the client when the entry was written
(`0` = no expiration). -/
structure Entry where
  val : String
  exp : Duration
deriving DecidableEq

/-- The remote key-value store, one entry per key. -/
abbrev Store := List (String × Entry)

/-- Look up the entry stored under `key`. -/
def lookupEntry : Store → String → Option Entry
  | [], _ => none
  | (k, e) :: rest, key => if k = key then some e else lookupEntry rest key

/-- Client `SET key val exp`: unconditional upsert. -/
def clientSet : Store → String → String → Duration → Store
  | [], key, v, exp => [(key, ⟨v, exp⟩)]
  | (k, e) :: rest, key, v, exp =>
    if k = key then (k, ⟨v, exp⟩) :: rest else (k, e) :: clientSet rest key v exp

/-- Client `SETNX key val exp`: write only if absent; reports whether the
write happened. -/
def clientSetNX (s : Store) (key : String) (v : String) (exp : Duration) :
    Store × Bool :=
  if (lookupEntry s key).isSome then (s, false) else (clientSet s key v exp, true)

/-- Client `EXISTS key`: the number of the given keys that exist (here a
single key, so `0` or `1`). -/
def clientExists (s : Store) (key : String) : Nat :=
  if (lookupEntry s key).isSome then 1 else 0

/-- Client `GET key` as raw bytes; `none` is the Redis nil reply (absent
key). -/
def clientGet (s : Store) (key : String) : Option String :=
  (lookupEntry s key).map Entry.val

/-- Client `DEL key`: remove the key, returning the number of keys
removed. -/
def clientDel : Store → String → Store × Nat
  | [], _ => ([], 0)
  | (k, e) :: rest, key =>
    if k = key then (rest, 1)
    else
      let r := clientDel rest key
      ((k, e) :: r.1, r.2)

/-- Update the value stored under `key` in place, keeping its expiration
(Redis `DECRBY` preserves the key's TTL). -/
def storeSetVal : Store → String → String → Store
  | [], _, _ => []
  | (k, e) :: rest, key, v =>
    if k = key then (k, ⟨v, e.exp⟩) :: rest else (k, e) :: storeSetVal rest key v

/-- The numeric value of a decimal digit character. -/
def decDigit? (c : Char) : Option Nat :=
  if '0' ≤ c ∧ c ≤ '9' then some (c.toNat - '0'.toNat) else none

/-- Accumulate the decimal value of a digit string; fails on any non-digit. -/
def digitsVal? : List Char → Nat → Option Nat
  | [], acc => some acc
  | c :: cs, acc =>
    match decDigit? c with
    | none => none
    | some dv => digitsVal? cs (acc * 10 + dv)

/-- The decimal value of a non-empty all-digit character list. -/
def parseDecimal? : List Char → Option Nat
  | [] => none
  | cs => digitsVal? cs 0

/-- Parse a decimal string as a Go `int64` the way `strconv.ParseInt(s, 10, 64)`
does: an optional sign followed by at least one digit, rejecting values
outside `[-2^63, 2^63)`. -/
def parseInt64 (s : String) : Option Int :=
  let core : Option Int :=
    match s.data with
    | [] => none
    | '-' :: rest => (parseDecimal? rest).map (fun n => -(n : Int))
    | '+' :: rest => (parseDecimal? rest).map (fun n => (n : Int))
    | cs => (parseDecimal? cs).map (fun n => (n : Int))
  match core with
  | some n =>
    if -9223372036854775808 ≤ n ∧ n < 9223372036854775808 then some n else none
  | none => none

/-- Go conversion `int64(d)` of a `uint64` value `d < 2^64`: two's-complement
reinterpretation. -/
def toInt64ofUInt64 (d : Nat) : Int :=
  if d < 9223372036854775808 then (d : Int) else (d : Int) - 18446744073709551616

/-- Go conversion `uint64(x)` of an `int64` value: two's-complement
reinterpretation, i.e. `x mod 2^64`. -/
def toUInt64ofInt64 (x : Int) : Nat :=
  (x % 18446744073709551616).toNat

/-- Wrap an integer into the `int64` range `[-2^63, 2^63)`, as Go addition of
two `int64` values does on overflow. -/
def wrap64 (x : Int) : Int :=
  (x + 9223372036854775808) % 18446744073709551616 - 9223372036854775808

/-- The Redis reply error for value-returning client commands: the nil reply
(`redis.Nil`, absent key) or another client-side failure. -/
inductive RedisReplyErr where
  | nilReply
  | failed (msg : String)
deriving DecidableEq

/-- Client `Get(key).Bytes()`: the raw bytes, or the nil reply when the key
is absent. -/
def clientGetBytes (s : Store) (key : String) : Except RedisReplyErr String :=
  match clientGet s key with
  | none => .error .nilReply
  | some b => .ok b

/-- Client `Get(key).Int64()`: the nil reply when the key is absent, a
client-side `strconv` failure when the stored value is not int64-shaped. -/
def clientGetInt64 (s : Store) (key : String) : Except RedisReplyErr Int :=
  match clientGet s key with
  | none => .error .nilReply
  | some str =>
    match parseInt64 str with
    | none => .error (.failed "strconv.ParseInt: invalid syntax")
    | some v => .ok v

/-- Client `DECRBY key n`: requires the current value (an absent key counts
as `0`) to be int64-shaped, subtracts `n`, errors if the result leaves the
int64 range, otherwise stores the result keeping the key's TTL and returns
it. -/
def clientDecrBy (s : Store) (key : String) (n : Int) : Store × Except Err Int :=
  match clientGet s key with
  | none =>
    let newv := 0 - n
    if -9223372036854775808 ≤ newv ∧ newv < 9223372036854775808 then
      (clientSet s key (toString newv) 0, .ok newv)
    else (s, .error (.clientErr "ERR increment or decrement would overflow"))
  | some str =>
    match parseInt64 str with
    | none => (s, .error (.clientErr "ERR value is not an integer or out of range"))
    | some old =>
      let newv := old - n
      if -9223372036854775808 ≤ newv ∧ newv < 9223372036854775808 then
        (storeSetVal s key (toString newv), .ok newv)
      else (s, .error (.clientErr "ERR increment or decrement would overflow"))

/-- The adapter: the external client's connection state is elided (the store
is passed explicitly), leaving the configured default expiration and the
serialization collaborator.  Modelled from the spec: the serialization pair
(`utils.Serialize` / `utils.Deserialize`, outside `src/`) turns a value into
bytes and back, either side may fail. -/
structure RedisStore (α : Type) where
  defaultExpiration : Duration
  serialize : α → Except Unit String
  deserialize : String → Except Unit α

variable {α : Type}

/-- `expval` from `redis.go`: resolve the two sentinels, pass any other
duration through. -/
def RedisStore.expval (c : RedisStore α) (expires : Duration) : Duration :=
  if expires = DEFAULT then c.defaultExpiration
  else if expires = FOREVER then 0
  else expires

/-- The write `c.Set` performs after serialization: client `SET` with the
expiration resolved through `expval`.  Modelled from the spec: `Replace`
hands the already-serialized byte slice back to `Set`, and the serialization
collaborator returns a byte-slice argument unchanged, so the inner `Set`
writes exactly these bytes (after re-applying `expval`). -/
def RedisStore.setBytes (c : RedisStore α) (s : Store) (key : String)
    (bytes : String) (expires : Duration) : Store × Option Err :=
  (clientSet s key bytes (c.expval expires), none)

/-- `Set` from `redis.go`: serialize, then client `SET` with the resolved
expiration. -/
def RedisStore.Set (c : RedisStore α) (s : Store) (key : String) (value : α)
    (expires : Duration) : Store × Option Err :=
  match c.serialize value with
  | .error _ => (s, some .serializeFailed)
  | .ok bytes => c.setBytes s key bytes expires

/-- `Add` from `redis.go`: serialize, client `SETNX` with the resolved
expiration, `ErrNotStored` when the key already existed. -/
def RedisStore.Add (c : RedisStore α) (s : Store) (key : String) (value : α)
    (expires : Duration) : Store × Option Err :=
  match c.serialize value with
  | .error _ => (s, some .serializeFailed)
  | .ok bytes =>
    let r := clientSetNX s key bytes (c.expval expires)
    if r.2 then (r.1, none) else (r.1, some .notStored)

/-- The `value == nil` test in `Replace`: at this point the Go variable
`value` is an `interface\x7b\x7d` holding the `[]byte` returned by
`Serialize`.  An interface holding a value of a concrete dynamic type is
never `== nil` in Go (even when the held slice is itself nil), so the test
is identically false. -/
def serializedIsNil (_bytes : String) : Bool := false

/-- `Replace` from `redis.go`: serialize, fail with `ErrNotStored` when the
key is absent (client `EXISTS` returns 0), then the (dead) nil test on the
serialized value, then `c.Set(key, value, c.expval(expires))` — note the
expiration is resolved here AND again inside `Set`. -/
def RedisStore.Replace (c : RedisStore α) (s : Store) (key : String) (value : α)
    (expires : Duration) : Store × Option Err :=
  match c.serialize value with
  | .error _ => (s, some .serializeFailed)
  | .ok bytes =>
    if clientExists s key = 0 then (s, some .notStored)
    else if serializedIsNil bytes then (s, some .notStored)
    else c.setBytes s key bytes (c.expval expires)

/-- The pure error-mapping part of `Get`: the nil reply becomes
`ErrCacheMiss`, any other client failure is passed through verbatim, and a
successful reply is deserialized into the destination. -/
def getLogic (deser : String → Except Unit α) (resp : Except RedisReplyErr String) :
    Except Err α :=
  match resp with
  | .error .nilReply => .error .cacheMiss
  | .error (.failed msg) => .error (.clientErr msg)
  | .ok bytes =>
    match deser bytes with
    | .error _ => .error .deserializeFailed
    | .ok v => .ok v

/-- `Get` from `redis.go`: client `GET` as bytes, nil reply mapped to
`ErrCacheMiss`, then deserialization into the caller's destination (modelled
as returning the deserialized value). -/
def RedisStore.Get (c : RedisStore α) (s : Store) (key : String) : Except Err α :=
  getLogic c.deserialize (clientGetBytes s key)

/-- `Delete` from `redis.go`: client `DEL`, `ErrCacheMiss` when zero keys
were removed. -/
def RedisStore.Delete (_c : RedisStore α) (s : Store) (key : String) :
    Store × Option Err :=
  let r := clientDel s key
  if r.2 = 0 then (r.1, some .cacheMiss) else (r.1, none)

/-- `Increment` from `redis.go`: read the key as int64 (nil reply mapped to
`ErrCacheMiss`, other failures passed through), add `int64(delta)` with Go
int64 wrap-around, write the sum back via client `SET` with expiration `0`
(not through `expval`), and return `uint64(sum)`. -/
def RedisStore.Increment (_c : RedisStore α) (s : Store) (key : String)
    (delta : Nat) : Store × Except Err Nat :=
  match clientGetInt64 s key with
  | .error .nilReply => (s, .error .cacheMiss)
  | .error (.failed msg) => (s, .error (.clientErr msg))
  | .ok val =>
    let sum := wrap64 (val + toInt64ofUInt64 delta)
    (clientSet s key (toString sum) 0, .ok (toUInt64ofInt64 sum))

/-- `Decrement` from `redis.go`: read the key as int64 (nil reply mapped to
`ErrCacheMiss`, other failures passed through), clamp
`delta` to `uint64(val)` when `delta > uint64(val)`, then client
`DECRBY key int64(delta)`, returning `uint64` of the result (the error,
when any, passed through). -/
def RedisStore.Decrement (_c : RedisStore α) (s : Store) (key : String)
    (delta : Nat) : Store × Except Err Nat :=
  match clientGetInt64 s key with
  | .error .nilReply => (s, .error .cacheMiss)
  | .error (.failed msg) => (s, .error (.clientErr msg))
  | .ok val =>
    let delta2 := if toUInt64ofInt64 val < delta then toUInt64ofInt64 val else delta
    let r := clientDecrBy s key (toInt64ofUInt64 delta2)
    match r.2 with
    | .ok n => (r.1, .ok (toUInt64ofInt64 n))
    | .error e => (r.1, .error e)

/-- `Flush` from `redis.go`: client `FLUSHALL`, removing every key. -/
def RedisStore.Flush (_c : RedisStore α) (_s : Store) : Store × Option Err :=
  ([], none)

/-- A concrete store over string values with the identity serialization pair
and the given default expiration, used to evaluate the adapter on concrete
inputs. -/
def stId (d : Duration) : RedisStore String :=
  ⟨d, fun v => .ok v, fun b => .ok b⟩

/-- A concrete store whose serialization collapses every value to the empty
byte string (a value whose serialization is empty). -/
def stEmptySer : RedisStore String :=
  ⟨0, fun _ => .ok "", fun b => .ok b⟩

/-! ### Store lemmas -/

theorem lookupEntry_clientSet_self (s : Store) (key v : String) (exp : Duration) :
    lookupEntry (clientSet s key v exp) key = some ⟨v, exp⟩ := by
  induction s with
  | nil => simp [clientSet, lookupEntry]
  | cons p rest ih =>
    obtain ⟨k, e⟩ := p
    by_cases h : k = key <;> simp [clientSet, lookupEntry, h, ih]

theorem lookupEntry_storeSetVal_self (s : Store) (key v : String) (e : Entry)
    (h : lookupEntry s key = some e) :
    lookupEntry (storeSetVal s key v) key = some ⟨v, e.exp⟩ := by
  induction s with
  | nil => simp [lookupEntry] at h
  | cons p rest ih =>
    obtain ⟨k, e0⟩ := p
    by_cases hk : k = key
    · simp [lookupEntry, hk] at h
      simp [storeSetVal, lookupEntry, hk, h]
    · simp [lookupEntry, hk] at h
      simp [storeSetVal, lookupEntry, hk, ih h]

theorem lookupEntry_eq_none_of_not_mem (s : Store) (key : String)
    (h : key ∉ s.map Prod.fst) : lookupEntry s key = none := by
  induction s with
  | nil => rfl
  | cons p rest ih =>
    obtain ⟨k, e⟩ := p
    simp only [List.map_cons, List.mem_cons] at h
    push_neg at h
    have hk : k ≠ key := fun hkk => h.1 hkk.symm
    simp [lookupEntry, hk, ih h.2]

theorem clientDel_absent (s : Store) (key : String) (h : lookupEntry s key = none) :
    clientDel s key = (s, 0) := by
  induction s with
  | nil => rfl
  | cons p rest ih =>
    obtain ⟨k, e⟩ := p
    by_cases hk : k = key
    · simp [lookupEntry, hk] at h
    · simp only [lookupEntry, hk, if_false] at h
      simp [clientDel, hk, ih h]

theorem clientDel_count_pos (s : Store) (key : String) (e : Entry)
    (h : lookupEntry s key = some e) : (clientDel s key).2 = 1 := by
  induction s with
  | nil => simp [lookupEntry] at h
  | cons p rest ih =>
    obtain ⟨k, e0⟩ := p
    by_cases hk : k = key
    · simp [clientDel, hk]
    · simp only [lookupEntry, hk, if_false] at h
      simp [clientDel, hk, ih h]

theorem lookupEntry_clientDel (s : Store) (key : String)
    (hnd : (s.map Prod.fst).Nodup) :
    lookupEntry (clientDel s key).1 key = none := by
  induction s with
  | nil => simp [clientDel, lookupEntry]
  | cons p rest ih =>
    obtain ⟨k, e⟩ := p
    simp only [List.map_cons, List.nodup_cons] at hnd
    by_cases hk : k = key
    · subst hk
      simp only [clientDel, if_pos rfl]
      exact lookupEntry_eq_none_of_not_mem rest k hnd.1
    · simp [clientDel, hk, lookupEntry, ih hnd.2]

/-! ### Machine-integer lemmas -/

theorem toUInt64ofInt64_nonneg (x : Int) (h1 : 0 ≤ x)
    (h2 : x < 18446744073709551616) : toUInt64ofInt64 x = x.toNat := by
  unfold toUInt64ofInt64
  omega

theorem toUInt64ofInt64_neg (x : Int) (h1 : -18446744073709551616 < x)
    (h2 : x < 0) : toUInt64ofInt64 x = (x + 18446744073709551616).toNat := by
  unfold toUInt64ofInt64
  omega

theorem toInt64ofUInt64_small (d : Nat) (h : d < 9223372036854775808) :
    toInt64ofUInt64 d = (d : Int) := by
  unfold toInt64ofUInt64
  omega

theorem wrap64_eq (x : Int) (h1 : -9223372036854775808 ≤ x)
    (h2 : x < 9223372036854775808) : wrap64 x = x := by
  unfold wrap64
  omega

/-! ### Unfolding lemmas for the integer operations -/

theorem clientDecrBy_present (s : Store) (key : String) (e : Entry)
    (old n : Int)
    (hent : lookupEntry s key = some e) (hparse : parseInt64 e.val = some old)
    (h1 : -9223372036854775808 ≤ old - n) (h2 : old - n < 9223372036854775808) :
    clientDecrBy s key n = (storeSetVal s key (toString (old - n)), .ok (old - n)) := by
  simp [clientDecrBy, clientGet, hent, hparse, h1, h2]

theorem Decrement_present (st : RedisStore α) (s : Store) (key : String)
    (e : Entry) (v : Int) (d : Nat)
    (hent : lookupEntry s key = some e)
    (hparse : parseInt64 e.val = some v) :
    RedisStore.Decrement st s key d =
      (let delta2 := if toUInt64ofInt64 v < d then toUInt64ofInt64 v else d
       let r := clientDecrBy s key (toInt64ofUInt64 delta2)
       match r.2 with
       | .ok n => (r.1, .ok (toUInt64ofInt64 n))
       | .error err => (r.1, .error err)) := by
  simp [RedisStore.Decrement, clientGetInt64, clientGet, hent, hparse]

/-! ### Claims -/

/-- Claim C1 (amended): `Set` and `Add` resolve the expiration sentinel
exactly once before the remote write (`DEFAULT` to the configured default,
`FOREVER` to no expiration, any other duration passed through literally),
but `Replace` resolves it twice: it pre-applies `expval` and then calls
`Set`, which applies `expval` again, so a `Replace` write reaches the remote
store with expiration `expval (expval e)`. -/
theorem C1_resolution (st : RedisStore α) (key : String) (v : α) (e : Duration)
    (b : String) (s1 s2 s3 : Store)
    (hser : st.serialize v = .ok b)
    (habs : lookupEntry s2 key = none)
    (hpres : clientExists s3 key ≠ 0) :
    lookupEntry (st.Set s1 key v e).1 key = some ⟨b, st.expval e⟩ ∧
    lookupEntry (st.Add s2 key v e).1 key = some ⟨b, st.expval e⟩ ∧
    lookupEntry (st.Replace s3 key v e).1 key = some ⟨b, st.expval (st.expval e)⟩ ∧
    st.expval DEFAULT = st.defaultExpiration ∧
    st.expval FOREVER = 0 ∧
    (e ≠ DEFAULT → e ≠ FOREVER → st.expval e = e) := by
  refine ⟨?_, ?_, ?_, ?_, ?_, ?_⟩
  · simp [RedisStore.Set, hser, RedisStore.setBytes, lookupEntry_clientSet_self]
  · simp [RedisStore.Add, hser, clientSetNX, habs, lookupEntry_clientSet_self]
  · simp [RedisStore.Replace, hser, hpres, serializedIsNil, RedisStore.setBytes,
      lookupEntry_clientSet_self]
  · simp [RedisStore.expval]
  · simp [RedisStore.expval, DEFAULT, FOREVER]
  · intro h1 h2
    simp [RedisStore.expval, h1, h2]

theorem C1_resolution_witness :
    lookupEntry (RedisStore.Set (stId 42) [] "k" "v" 5).1 "k"
      = some ⟨"v", RedisStore.expval (stId 42) 5⟩ ∧
    lookupEntry (RedisStore.Add (stId 42) [] "k" "v" 5).1 "k"
      = some ⟨"v", RedisStore.expval (stId 42) 5⟩ ∧
    lookupEntry (RedisStore.Replace (stId 42) [("k", ⟨"x", 1⟩)] "k" "v" 5).1 "k"
      = some ⟨"v", RedisStore.expval (stId 42) (RedisStore.expval (stId 42) 5)⟩ ∧
    RedisStore.expval (stId 42) DEFAULT = (stId 42).defaultExpiration ∧
    RedisStore.expval (stId 42) FOREVER = 0 ∧
    ((5 : Duration) ≠ DEFAULT → (5 : Duration) ≠ FOREVER →
      RedisStore.expval (stId 42) 5 = 5) :=
  C1_resolution (stId 42) "k" "v" 5 "v" [] [] [("k", ⟨"x", 1⟩)] rfl rfl (by decide)

/-- Claim C1 counterexample: with configured default expiration 300, calling
`Replace` on a present key with the never-expire sentinel stores the entry
with expiration 300 (the configured default), not with no expiration: the
sentinel is resolved twice, and the first resolution (`FOREVER` to `0`)
collides with the `DEFAULT` sentinel. -/
theorem C1_counterexample :
    lookupEntry
        (RedisStore.Replace (stId 300) [("k", ⟨"old", 7⟩)] "k" "new" FOREVER).1 "k"
      = some ⟨"new", 300⟩ ∧ (300 : Duration) ≠ 0 :=
  ⟨rfl, by decide⟩

/-- Claim C2 (code bug): the `value == nil` test in `Replace` compares a Go
interface holding the `[]byte` returned by `Serialize` against `nil`; such
an interface is never `nil`, so the test is dead.  On a store containing
`k` and a value whose serialization is the empty byte string, `Replace`
overwrites `k` and returns success instead of failing with `ErrNotStored`. -/
theorem C2_dead_nil_check :
    stEmptySer.Replace [("k", ⟨"old", 5⟩)] "k" "v" DEFAULT
      = ([("k", ⟨"", 0⟩)], none) ∧ (∀ b, serializedIsNil b = false) :=
  ⟨rfl, fun _ => rfl⟩

/-- Claim C3 counterexample: on a key storing `-5`, `Decrement` with delta 3
returns `2^64 - 8`, not `v - min(d, v) = 0`: the claimed clamping does not
keep the result at zero for a negative stored integer. -/
theorem C3_counterexample :
    (RedisStore.Decrement (stId 0) [("k", ⟨"-5", 0⟩)] "k" 3).2
      = .ok 18446744073709551608 ∧ (18446744073709551608 : Nat) ≠ 0 :=
  ⟨rfl, by decide⟩

/-- Claim C3 (amended): `Decrement` on an absent key fails with
`ErrCacheMiss`; on a key storing a nonnegative int64 `v`, for any delta
`d < 2^64`, the delta is clamped to `v` when it exceeds `v`, the remote
value becomes `v - min d v` and `v - min d v` is returned (so stored 3 with
delta 10 yields 0, never a negative value). -/
theorem C3_decrement (st : RedisStore α) (s1 s2 : Store) (key : String)
    (e : Entry) (v d : Nat)
    (habs : lookupEntry s1 key = none)
    (hent : lookupEntry s2 key = some e)
    (hparse : parseInt64 e.val = some (v : Int))
    (hv : v < 9223372036854775808) (hd : d < 18446744073709551616) :
    RedisStore.Decrement st s1 key d = (s1, .error .cacheMiss) ∧
    (RedisStore.Decrement st s2 key d).2 = .ok (v - min d v) ∧
    (lookupEntry (RedisStore.Decrement st s2 key d).1 key).map Entry.val
      = some (toString ((v : Int) - (min d v : Nat))) := by
  have huv : toUInt64ofInt64 (v : Int) = v := by
    rw [toUInt64ofInt64_nonneg (v : Int) (by omega) (by omega)]
    omega
  have hminv : min d v ≤ v := Nat.min_le_right d v
  have hmin : (if v < d then v else d) = min d v := by
    rcases Nat.lt_or_ge v d with h | h
    · rw [if_pos h, Nat.min_eq_right (Nat.le_of_lt h)]
    · rw [if_neg (Nat.not_lt.mpr h), Nat.min_eq_left h]
  have hres : toUInt64ofInt64 ((v : Int) - min (d : Int) (v : Int)) = v - min d v := by
    rw [toUInt64ofInt64_nonneg _ (by omega) (by omega)]
    omega
  refine ⟨?_, ?_⟩
  · simp [RedisStore.Decrement, clientGetInt64, clientGet, habs]
  · simp only [RedisStore.Decrement, clientGetInt64, clientGet, hent,
      Option.map, hparse, huv, hmin]
    rw [toInt64ofUInt64_small (min d v) (by omega),
      clientDecrBy_present s2 key e (v : Int) ((min d v : Nat) : Int) hent hparse
        (by omega) (by omega)]
    simp [hres, hent, lookupEntry_storeSetVal_self]

theorem C3_decrement_witness :
    RedisStore.Decrement (stId 0) [] "k" 10 = ([], .error .cacheMiss) ∧
    (RedisStore.Decrement (stId 0) [("k", ⟨"3", 77⟩)] "k" 10).2
      = .ok (3 - min 10 3) ∧
    (lookupEntry (RedisStore.Decrement (stId 0) [("k", ⟨"3", 77⟩)] "k" 10).1 "k").map
        Entry.val
      = some (toString ((3 : Int) - ((min 10 3 : Nat) : Int))) :=
  C3_decrement (stId 0) [] [("k", ⟨"3", 77⟩)] "k" ⟨"3", 77⟩ 3 10
    rfl rfl rfl (by decide) (by decide)

/-- Claim C4 counterexample: the claim's parenthetical "a huge unsigned
number that d never exceeds" fails for the most negative stored value: on a
key storing `-2^63`, `uint64(val)` is `2^63`, a delta of `2^63 + 1` exceeds
it, so clamping DOES apply; the clamped delta reinterpreted as int64 is
`-2^63`, the remote `DECRBY` adds `2^63`, and `Decrement` returns `0` — not
a large nonzero value. -/
theorem C4_counterexample :
    (RedisStore.Decrement (stId 0) [("k", ⟨"-9223372036854775808", 0⟩)] "k"
        9223372036854775809).2 = .ok 0 :=
  rfl

/-- Claim C4 (amended): for a key storing a negative int64 `v` and a
positive delta `d < 2^63` (so that `d` cannot exceed `uint64(v) ≥ 2^63` and
`int64(d) = d`), provided `v - d` does not underflow the int64 range (the
remote `DECRBY` rejects that), `Decrement` applies no clamping: the remote
value becomes `v - d` (keeping the key's TTL) and the returned value is the
unsigned two's-complement conversion `v - d + 2^64`, a nonzero uint64 of at
least `2^63`. -/
theorem C4_decrement_negative (st : RedisStore α) (s : Store) (key : String)
    (e : Entry) (v : Int) (d : Nat)
    (hent : lookupEntry s key = some e)
    (hparse : parseInt64 e.val = some v)
    (hneg : v < 0) (hlo : -9223372036854775808 ≤ v)
    (hd0 : 0 < d) (hd : d < 9223372036854775808)
    (hnoflow : -9223372036854775808 ≤ v - d) :
    (RedisStore.Decrement st s key d).2 = .ok (v - d + 18446744073709551616).toNat ∧
    (v - d + 18446744073709551616).toNat ≠ 0 ∧
    (lookupEntry (RedisStore.Decrement st s key d).1 key).map Entry.val
      = some (toString (v - (d : Int))) := by
  have huv : toUInt64ofInt64 v = (v + 18446744073709551616).toNat := by
    rw [toUInt64ofInt64_neg v (by omega) hneg]
  have hnoclamp : ¬ (toUInt64ofInt64 v < d) := by
    rw [huv]; omega
  have hres : toUInt64ofInt64 (v - (d : Int)) = (v - d + 18446744073709551616).toNat := by
    rw [toUInt64ofInt64_neg _ (by omega) (by omega)]
  refine ⟨?_, by omega, ?_⟩ <;>
  · simp only [RedisStore.Decrement, clientGetInt64, clientGet, hent,
      Option.map, hparse, hnoclamp, if_false]
    rw [toInt64ofUInt64_small d hd,
      clientDecrBy_present s key e v (d : Int) hent hparse hnoflow (by omega)]
    simp [hres, hent, lookupEntry_storeSetVal_self]

theorem C4_decrement_negative_witness :
    (RedisStore.Decrement (stId 0) [("k", ⟨"-5", 9⟩)] "k" 3).2
      = .ok ((-5 : Int) - 3 + 18446744073709551616).toNat ∧
    ((-5 : Int) - 3 + 18446744073709551616).toNat ≠ 0 ∧
    (lookupEntry (RedisStore.Decrement (stId 0) [("k", ⟨"-5", 9⟩)] "k" 3).1 "k").map
        Entry.val
      = some (toString ((-5 : Int) - (3 : Nat))) :=
  C4_decrement_negative (stId 0) [("k", ⟨"-5", 9⟩)] "k" ⟨"-5", 9⟩ (-5) 3
    rfl rfl (by decide) (by decide) (by decide) (by decide) (by decide)

/-- Claim C5: on a key holding an int64-shaped value, `Increment` succeeds
and writes the new value back with expiration `0` (never expire), regardless
of the expiration the entry had before the call: the write-back in
`redis.go` passes the literal duration `0` to the client, applying no TTL
preservation. -/
theorem C5_increment_resets_ttl (st : RedisStore α) (s : Store) (key : String)
    (e : Entry) (v : Int) (d : Nat)
    (hent : lookupEntry s key = some e)
    (hparse : parseInt64 e.val = some v) :
    (RedisStore.Increment st s key d).2
      = .ok (toUInt64ofInt64 (wrap64 (v + toInt64ofUInt64 d))) ∧
    lookupEntry (RedisStore.Increment st s key d).1 key
      = some ⟨toString (wrap64 (v + toInt64ofUInt64 d)), 0⟩ := by
  simp [RedisStore.Increment, clientGetInt64, clientGet, hent, hparse,
    lookupEntry_clientSet_self]

theorem C5_increment_resets_ttl_witness :
    (RedisStore.Increment (stId 0) [("k", ⟨"5", 99⟩)] "k" 3).2
      = .ok (toUInt64ofInt64 (wrap64 ((5 : Int) + toInt64ofUInt64 3))) ∧
    lookupEntry (RedisStore.Increment (stId 0) [("k", ⟨"5", 99⟩)] "k" 3).1 "k"
      = some ⟨toString (wrap64 ((5 : Int) + toInt64ofUInt64 3)), 0⟩ :=
  C5_increment_resets_ttl (stId 0) [("k", ⟨"5", 99⟩)] "k" ⟨"5", 99⟩ 5 3 rfl rfl

/-- Claim C6 counterexample: on a key storing `-10`, `Increment` with delta
3 returns `2^64 - 7` — the uint64 reinterpretation of the int64 sum — which
is not the claimed `v + d = -7`. -/
theorem C6_counterexample :
    (RedisStore.Increment (stId 0) [("k", ⟨"-10", 0⟩)] "k" 3).2
      = .ok 18446744073709551609 ∧
    ((18446744073709551609 : Int) ≠ (-10 : Int) + 3) :=
  ⟨rfl, by decide⟩

/-- Claim C6 (amended): `Increment` on an absent key fails with
`ErrCacheMiss`; on a key whose stored value is not int64-shaped it fails
with the client's parse error; and on a key storing a NONNEGATIVE int64 `v`
with `v + d` within the int64 range it stores and returns `v + d` (stored 5
with delta 3 returns 8).  Outside that range the int64 sum wraps and its
uint64 reinterpretation is returned. -/
theorem C6_increment (st : RedisStore α) (s1 s2 s3 : Store) (key : String)
    (e2 e3 : Entry) (v d : Nat)
    (habs : lookupEntry s1 key = none)
    (hent2 : lookupEntry s2 key = some e2)
    (hbad : parseInt64 e2.val = none)
    (hent3 : lookupEntry s3 key = some e3)
    (hparse : parseInt64 e3.val = some (v : Int))
    (hsum : v + d < 9223372036854775808) :
    RedisStore.Increment st s1 key d = (s1, .error .cacheMiss) ∧
    (RedisStore.Increment st s2 key d).2
      = .error (.clientErr "strconv.ParseInt: invalid syntax") ∧
    (RedisStore.Increment st s3 key d).2 = .ok (v + d) ∧
    (lookupEntry (RedisStore.Increment st s3 key d).1 key).map Entry.val
      = some (toString ((v : Int) + (d : Nat))) := by
  have hd63 : d < 9223372036854775808 := by omega
  have hwrap : wrap64 ((v : Int) + toInt64ofUInt64 d) = (v : Int) + (d : Nat) := by
    rw [toInt64ofUInt64_small d hd63, wrap64_eq _ (by omega) (by omega)]
  have hback : toUInt64ofInt64 ((v : Int) + (d : Nat)) = v + d := by
    rw [toUInt64ofInt64_nonneg _ (by omega) (by omega)]
    omega
  refine ⟨?_, ?_, ?_, ?_⟩
  · simp [RedisStore.Increment, clientGetInt64, clientGet, habs]
  · simp [RedisStore.Increment, clientGetInt64, clientGet, hent2, hbad]
  · simp [RedisStore.Increment, clientGetInt64, clientGet, hent3, hparse,
      hwrap, hback]
  · simp [RedisStore.Increment, clientGetInt64, clientGet, hent3, hparse,
      hwrap, lookupEntry_clientSet_self]

theorem C6_increment_witness :
    RedisStore.Increment (stId 0) [] "k" 3 = ([], .error .cacheMiss) ∧
    (RedisStore.Increment (stId 0) [("k", ⟨"abc", 1⟩)] "k" 3).2
      = .error (.clientErr "strconv.ParseInt: invalid syntax") ∧
    (RedisStore.Increment (stId 0) [("k", ⟨"5", 99⟩)] "k" 3).2 = .ok (5 + 3) ∧
    (lookupEntry (RedisStore.Increment (stId 0) [("k", ⟨"5", 99⟩)] "k" 3).1 "k").map
        Entry.val
      = some (toString ((5 : Int) + (3 : Nat))) :=
  C6_increment (stId 0) [] [("k", ⟨"abc", 1⟩)] [("k", ⟨"5", 99⟩)] "k"
    ⟨"abc", 1⟩ ⟨"5", 99⟩ 5 3 rfl rfl rfl rfl rfl (by decide)

/-- Claim C7: assuming the serialization pair is inverse on the value
(deserializing its serialization returns it), a successful `Set` of
`(key, value)` followed by `Get key` succeeds and yields a value equal to
the original. -/
theorem C7_set_get_roundtrip (st : RedisStore α) (s : Store) (key : String)
    (value : α) (expires : Duration) (b : String)
    (hser : st.serialize value = .ok b)
    (hdeser : st.deserialize b = .ok value) :
    (st.Set s key value expires).2 = none ∧
    st.Get (st.Set s key value expires).1 key = .ok value := by
  constructor
  · simp [RedisStore.Set, hser, RedisStore.setBytes]
  · simp [RedisStore.Set, hser, RedisStore.setBytes, RedisStore.Get,
      clientGetBytes, clientGet, lookupEntry_clientSet_self, getLogic, hdeser]

theorem C7_set_get_roundtrip_witness :
    ((stId 0).Set [] "k" "hello" 5).2 = none ∧
    (stId 0).Get ((stId 0).Set [] "k" "hello" 5).1 "k" = .ok "hello" :=
  C7_set_get_roundtrip (stId 0) [] "k" "hello" 5 "hello" rfl rfl

/-- Claim C8: `Add` on a key already present in the store (with the value's
serialization succeeding) fails with `ErrNotStored` and leaves the store —
in particular the key's value and its expiration — exactly as before the
call: the client `SETNX` refuses the write. -/
theorem C8_add_existing (st : RedisStore α) (s : Store) (key : String)
    (value : α) (expires : Duration) (e : Entry) (b : String)
    (hent : lookupEntry s key = some e)
    (hser : st.serialize value = .ok b) :
    st.Add s key value expires = (s, some .notStored) ∧
    lookupEntry (st.Add s key value expires).1 key = some e := by
  have h : st.Add s key value expires = (s, some .notStored) := by
    simp [RedisStore.Add, hser, clientSetNX, hent]
  exact ⟨h, by rw [h]; exact hent⟩

theorem C8_add_existing_witness :
    (stId 0).Add [("k", ⟨"old", 7⟩)] "k" "new" 5
      = ([("k", ⟨"old", 7⟩)], some .notStored) ∧
    lookupEntry ((stId 0).Add [("k", ⟨"old", 7⟩)] "k" "new" 5).1 "k"
      = some ⟨"old", 7⟩ :=
  C8_add_existing (stId 0) [("k", ⟨"old", 7⟩)] "k" "new" 5 ⟨"old", 7⟩ "new" rfl rfl

/-- Claim C9: `Delete` on an absent key (client `DEL` removes zero keys)
fails with `ErrCacheMiss` and leaves the store as is; `Delete` on a present
key (in a store without duplicate keys) succeeds and removes it, so that a
subsequent `Get` of the same key fails with `ErrCacheMiss`. -/
theorem C9_delete (st : RedisStore α) (s1 s2 : Store) (key : String) (e : Entry)
    (habs : lookupEntry s1 key = none)
    (hent : lookupEntry s2 key = some e)
    (hnd : (s2.map Prod.fst).Nodup) :
    RedisStore.Delete st s1 key = (s1, some .cacheMiss) ∧
    (RedisStore.Delete st s2 key).2 = none ∧
    lookupEntry (RedisStore.Delete st s2 key).1 key = none ∧
    RedisStore.Get st (RedisStore.Delete st s2 key).1 key = .error .cacheMiss := by
  have hdelabs := clientDel_absent s1 key habs
  have hcount := clientDel_count_pos s2 key e hent
  have hlook := lookupEntry_clientDel s2 key hnd
  refine ⟨?_, ?_, ?_, ?_⟩
  · simp [RedisStore.Delete, hdelabs]
  · simp [RedisStore.Delete, hcount]
  · simp [RedisStore.Delete, hcount, hlook]
  · simp [RedisStore.Delete, hcount, RedisStore.Get, clientGetBytes, clientGet,
      hlook, getLogic]

theorem C9_delete_witness :
    RedisStore.Delete (stId 0) [] "k" = ([], some .cacheMiss) ∧
    (RedisStore.Delete (stId 0) [("k", ⟨"v", 5⟩)] "k").2 = none ∧
    lookupEntry (RedisStore.Delete (stId 0) [("k", ⟨"v", 5⟩)] "k").1 "k" = none ∧
    RedisStore.Get (stId 0) (RedisStore.Delete (stId 0) [("k", ⟨"v", 5⟩)] "k").1 "k"
      = .error .cacheMiss :=
  C9_delete (stId 0) [] [("k", ⟨"v", 5⟩)] "k" ⟨"v", 5⟩ rfl rfl (by simp)

/-- Claim C10: `Get` on a key absent from the store fails with
`ErrCacheMiss`: the client's nil reply is mapped to `ErrCacheMiss`, while
any other underlying client failure is passed through verbatim by the
error-mapping logic of `Get`. -/
theorem C10_get_miss (st : RedisStore α) (s : Store) (key : String)
    (habs : lookupEntry s key = none) :
    RedisStore.Get st s key = .error .cacheMiss ∧
    (∀ msg, getLogic st.deserialize (.error (.failed msg))
      = .error (.clientErr msg)) := by
  constructor
  · simp [RedisStore.Get, clientGetBytes, clientGet, habs, getLogic]
  · intro msg
    rfl

theorem C10_get_miss_witness :
    RedisStore.Get (stId 0) [("other", ⟨"v", 1⟩)] "k" = .error .cacheMiss ∧
    (∀ msg, getLogic (stId 0).deserialize (.error (.failed msg))
      = .error (.clientErr msg)) :=
  C10_get_miss (stId 0) [("other", ⟨"v", 1⟩)] "k" rfl
